import Mathlib

/-!
Verification development for the load-tester repository (Go).

The source consists of `main.go` (configuration, dispatcher loop `runLoadTest`,
result reporting) and `utils.go` (placeholder engine, async CSV logger,
`makeRequest`, signal handling).  This file gives a shallow embedding of the
parts of the program the claims are about, translated function by function
from the source, and proves the claims as theorems.

Modelling conventions:
- Go `int` is modelled as `Int` (64-bit overflow is irrelevant at the sizes
  the program manipulates; `strconv.Atoi` range checking is modelled
  explicitly where the source relies on it).
- Go `float64` is modelled as `ℚ` where the values involved are exact
  (the derived-concurrency product, the regex float argument groups), and
  as an explicit oracle where binary64 semantics matter: the numeric
  coercion of `replaceRandomPlaceholders` calls `strconv.ParseFloat`, whose
  acceptance language (inf, nan, hex floats, underscored digits), rounding
  to the nearest double and range errors are floating point that a rational
  embedding cannot reproduce, so the coercion branch consumes the
  observations of that call through the `parseFloat` field of `Env`
  (see `ParseFloatOutcome`); closed theorems instantiate the oracle with a
  plain-decimal parser at strings where it agrees with ParseFloat exactly.
- The process-wide pseudo-random source (`math/rand`, `crypto/rand`) is
  modelled as an explicit oracle state `Rng` threaded through the functions:
  each draw reads the next value of an arbitrary stream.  `rand.Intn n`
  returns the next stream value reduced mod `n`; the source would panic for
  `n ≤ 0`, a case no caller of the embedding reaches (modelled as `0`).
- Wall-clock time, RFC-3339 time formatting, float pretty-printing
  (`fmt` with the `v` verb) and the ParseFloat observations above are
  supplied as fields of an `Env` record; the first three are impure or
  rendering-only and stay abstract, the last is instantiated concretely
  where a closed theorem needs it.
- Concurrency is modelled by making the per-iteration observations of the
  shared shutdown flag, the rate limiter and each worker goroutine explicit
  parameters (`DispatchEnv`); the mutex-protected counter updates of
  `runLoadTest` become a fold over the sequence of completed outcomes in
  completion order, which is exactly what the critical section serializes.
-/

namespace LoadTester

/-! ## Character and string helpers (models of Go stdlib pieces) -/

/-- Longest prefix of decimal digits, and the remainder. -/
def takeDigits : List Char → List Char × List Char
  | [] => ([], [])
  | c :: cs =>
    if c.isDigit then
      let p := takeDigits cs
      (c :: p.1, p.2)
    else ([], c :: cs)

/-- Numeric value of a digit list (most significant first). -/
def digitsToNat (ds : List Char) : Nat :=
  ds.foldl (fun a c => a * 10 + (c.toNat - 48)) 0

/-- Model of Go strconv.Atoi: optional sign, decimal digits, 64-bit range
check.  Returns none exactly when Go returns a non-nil error (the callers in
the source only test the error for nil). -/
def goAtoi (s : String) : Option Int :=
  let p : Int × List Char :=
    match s.toList with
    | '+' :: r => (1, r)
    | '-' :: r => (-1, r)
    | r => (1, r)
  if p.2 ≠ [] ∧ p.2.all Char.isDigit then
    let v : Int := p.1 * (digitsToNat p.2 : Int)
    if -(2 ^ 63) ≤ v ∧ v ≤ 2 ^ 63 - 1 then some v else none
  else none

/-- Exact-rational parser for the plain decimal forms
sign? digits* (dot digits*)? (exponent)? with at least one mantissa digit.
This is NOT a full model of strconv.ParseFloat: ParseFloat also accepts
inf, infinity and nan (case-insensitively, signed), hex floats and
underscore-grouped digits, rounds the exact decimal value to the nearest
binary64 and returns a range error on overflow or underflow -- all binary64
floating point.  This parser is used (a) for the regex float argument
groups of random.float, whose syntax is digits-dot-digits so only the
(unexercised) rounding of overlong literals is dropped, and (b) inside
decimalParseFloat, the concrete oracle instance the closed theorems use at
short digit strings such as 5 and 7, where ParseFloat is exact and agrees
with this parser. -/
def parsePlainDecimal (s : String) : Option ℚ :=
  let p : ℚ × List Char :=
    match s.toList with
    | '+' :: r => (1, r)
    | '-' :: r => (-1, r)
    | r => (1, r)
  let ipart := takeDigits p.2
  let q : Bool × List Char :=
    match ipart.2 with
    | '.' :: r => (true, r)
    | r => (false, r)
  let fpart := if q.1 then takeDigits q.2 else ([], q.2)
  if ipart.1 = [] ∧ fpart.1 = [] then none
  else
    let mant : ℚ :=
      (digitsToNat ipart.1 : ℚ) + (digitsToNat fpart.1 : ℚ) / (10 : ℚ) ^ fpart.1.length
    match fpart.2 with
    | [] => some (p.1 * mant)
    | 'e' :: r =>
      let ep : Int × List Char :=
        match r with
        | '+' :: t => (1, t)
        | '-' :: t => (-1, t)
        | t => (1, t)
      let ed := takeDigits ep.2
      if ed.1 = [] ∨ ed.2 ≠ [] then none
      else some (p.1 * mant * (10 : ℚ) ^ (ep.1 * (digitsToNat ed.1 : Int)))
    | 'E' :: r =>
      let ep : Int × List Char :=
        match r with
        | '+' :: t => (1, t)
        | '-' :: t => (-1, t)
        | t => (1, t)
      let ed := takeDigits ep.2
      if ed.1 = [] ∨ ed.2 ≠ [] then none
      else some (p.1 * mant * (10 : ℚ) ^ (ep.1 * (digitsToNat ed.1 : Int)))
    | _ => none

/-- ASCII whitespace as trimmed by Go strings.TrimSpace (the Unicode space
runes TrimSpace also strips never occur in the strings the program trims). -/
def isGoSpace (c : Char) : Bool :=
  c = ' ' ∨ c = '\t' ∨ c = '\n' ∨ c = '\x0b' ∨ c = '\x0c' ∨ c = '\r'

/-- Model of Go strings.TrimSpace. -/
def trimSpace (s : String) : String :=
  String.mk (((s.toList.dropWhile isGoSpace).reverse.dropWhile isGoSpace).reverse)

/-- Model of Go strings.Split with separator a single comma. -/
def splitOnComma : List Char → List (List Char)
  | [] => [[]]
  | ',' :: rest => [] :: splitOnComma rest
  | c :: rest =>
    match splitOnComma rest with
    | g :: gs => (c :: g) :: gs
    | [] => [[c]]

/-- Replace the first occurrence of pat (nonempty in every use) in a list. -/
def listReplaceFirst (pat rep : List Char) : List Char → List Char
  | [] => []
  | c :: rest =>
    if pat.isPrefixOf (c :: rest) then rep ++ (c :: rest).drop pat.length
    else c :: listReplaceFirst pat rep rest

/-- Model of Go strings.Replace(s, old, new, 1). -/
def goReplaceFirst (s old new : String) : String :=
  if old.toList = [] then new ++ s
  else String.mk (listReplaceFirst old.toList new.toList s.toList)

/-! ## Random source and impure environment

The program uses the process-global math/rand source (Intn, Int63n, Float64)
and crypto/rand (Read for UUID bytes).  We model the source as three oracle
streams with cursors; every generator reads from them in the order the Go
code performs its draws. -/

/-- Oracle model of the random sources.  Each stream value is arbitrary; a
draw reads the value at the cursor and advances it. -/
structure Rng where
  intSrc : Nat → Nat
  floatSrc : Nat → ℚ
  byteSrc : Nat → Nat
  intIdx : Nat
  floatIdx : Nat
  byteIdx : Nat

/-- Model of math/rand Intn and Int63n: next int draw reduced into the range.
Go panics when the bound is not positive; no call site of the embedding
reaches that case, and it is modelled as 0. -/
def Rng.nextIntn (r : Rng) (bound : Int) : Int × Rng :=
  (if bound ≤ 0 then 0 else (r.intSrc r.intIdx : Int) % bound,
   ⟨r.intSrc, r.floatSrc, r.byteSrc, r.intIdx + 1, r.floatIdx, r.byteIdx⟩)

/-- Model of math/rand Float64: next float draw (a value in the unit
interval). -/
def Rng.nextFloat (r : Rng) : ℚ × Rng :=
  (r.floatSrc r.floatIdx,
   ⟨r.intSrc, r.floatSrc, r.byteSrc, r.intIdx, r.floatIdx + 1, r.byteIdx⟩)

/-- Model of one byte read from crypto/rand. -/
def Rng.nextByte (r : Rng) : Nat × Rng :=
  (r.byteSrc r.byteIdx % 256,
   ⟨r.intSrc, r.floatSrc, r.byteSrc, r.intIdx, r.floatIdx, r.byteIdx + 1⟩)

/-- The observations the numeric-coercion branch of
replaceRandomPlaceholders makes of one strconv.ParseFloat call
(utils.go lines 88-96): err models a non-nil error (syntax error, or a
range error on overflow or underflow); integral n models a nil error with
val equal to math.Trunc(val), n being the Go conversion int(val); and
fractional q models a nil error with val different from its truncation, q
being the rational the model carries for the float64 value.  ParseFloat
itself is binary64 floating point -- it accepts inf, infinity and nan
case-insensitively, hex floats and underscored digits, and rounds decimal
text to the nearest double (so the letters inf drawn by a random.string
token coerce, and 9007199254740993.5 rounds to the integral double
9007199254740994) -- which a rational embedding cannot reproduce, so the
engine consumes the call through this outcome type, supplied by the
environment; decimalParseFloat below is the concrete instance used by the
closed theorems, at strings where it agrees with ParseFloat exactly.
A NaN result lands in fractional (NaN is unequal to its truncation); its
payload is never inspected by any theorem. -/
inductive ParseFloatOutcome where
  | err : ParseFloatOutcome
  | integral : Int → ParseFloatOutcome
  | fractional : ℚ → ParseFloatOutcome
deriving DecidableEq

/-- Concrete ParseFloat oracle for closed theorems: exact on the plain
decimal strings it is applied to (single digits and short digit runs, where
ParseFloat performs no rounding and reports no range error). -/
def decimalParseFloat (s : String) : ParseFloatOutcome :=
  match parsePlainDecimal s with
  | none => ParseFloatOutcome.err
  | some q =>
    if q.den = 1 then ParseFloatOutcome.integral q.num else ParseFloatOutcome.fractional q

/-- Collaborators of the placeholder engine supplied by the environment:
pretty printing of float64 with the fmt verb v, RFC-3339 formatting of an
instant, the ParseFloat observations described at ParseFloatOutcome, and
the current wall clock in nanoseconds (time.Now). -/
structure Env where
  formatFloat : ℚ → String
  formatTime : Int → String
  parseFloat : String → ParseFloatOutcome
  now : Int

/-! ## Dynamic values

The variable template tree is Go data decoded from YAML:
nil, bool, int, float64, string, slice, map.  Go maps iterate in
unspecified order; the embedding fixes an entry order by using association
lists, which is sound for every claim proved here (the order affects only
which random draw feeds which leaf, never the shape or the per-leaf
behavior). -/

inductive GoValue where
  | null : GoValue
  | bool : Bool → GoValue
  | int : Int → GoValue
  | float : ℚ → GoValue
  | str : String → GoValue
  | list : List GoValue → GoValue
  | map : List (String × GoValue) → GoValue

/-- Rendering a generator result with fmt and the v verb
(generators only ever produce strings, ints and float64 values). -/
def goFormat (env : Env) : GoValue → String
  | GoValue.str s => s
  | GoValue.int n => toString n
  | GoValue.float q => env.formatFloat q
  | GoValue.bool b => if b then "true" else "false"
  | _ => ""

/-! ## The placeholder patterns

replaceRandomPlaceholders (utils.go lines 62-99) holds a map from nine
regular expressions to generator functions and, for each pattern, finds all
non-overlapping leftmost matches and replaces them one by one.  Each
pattern is a fixed literal with an optional argument group; the matchers
below implement exactly the language of each regular expression (the
patterns need no backtracking: every greedy run is followed by a character
the run cannot consume). -/

inductive PatternKind where
  | string | number | int | float | uuid | email | name | timestamp | choice
deriving DecidableEq

/-- All nine patterns of the source map, in source order.  The Go map
iterates in unspecified order; theorems about the engine therefore
quantify over an arbitrary application order wherever the order could
matter. -/
def canonicalOrder : List PatternKind :=
  [PatternKind.string, PatternKind.number, PatternKind.int, PatternKind.float,
   PatternKind.uuid, PatternKind.email, PatternKind.name, PatternKind.timestamp,
   PatternKind.choice]

/-- Match a literal prefix, returning the remainder. -/
def dropLit : List Char → List Char → Option (List Char)
  | [], s => some s
  | _ :: _, [] => none
  | c :: ps, x :: xs => if x = c then dropLit ps xs else none

/-- Result of matching one pattern at the head of the input: capture groups
(with the empty string for an unmatched optional group, as in Go) and the
remainder of the input after the match. -/
structure MatchResult where
  groups : List String
  rest : List Char

/-- Parse "(" digits ")" "\x7d\x7d"  (the optional argument of random.string). -/
def tryIntArg1 (s : List Char) : Option (String × List Char) :=
  match dropLit "(".toList s with
  | none => none
  | some r1 =>
    let d := takeDigits r1
    if d.1 = [] then none
    else
      match dropLit ")\x7d\x7d".toList d.2 with
      | none => none
      | some r2 => some (String.mk d.1, r2)

/-- Parse "(" digits "," digits ")" "\x7d\x7d"  (arguments of random.number
and random.int). -/
def tryIntArg2 (s : List Char) : Option (String × String × List Char) :=
  match dropLit "(".toList s with
  | none => none
  | some r1 =>
    let d1 := takeDigits r1
    if d1.1 = [] then none
    else
      match dropLit ",".toList d1.2 with
      | none => none
      | some r2 =>
        let d2 := takeDigits r2
        if d2.1 = [] then none
        else
          match dropLit ")\x7d\x7d".toList d2.2 with
          | none => none
          | some r3 => some (String.mk d1.1, String.mk d2.1, r3)

/-- One float argument group: digits, optional dot, digits. -/
def takeFloatGroup (s : List Char) : Option (List Char × List Char) :=
  let d1 := takeDigits s
  if d1.1 = [] then none
  else
    match d1.2 with
    | '.' :: r2 =>
      let d2 := takeDigits r2
      some (d1.1 ++ '.' :: d2.1, d2.2)
    | r => some (d1.1, r)

/-- Parse "(" float "," float ")" "\x7d\x7d"  (arguments of random.float). -/
def tryFloatArg2 (s : List Char) : Option (String × String × List Char) :=
  match dropLit "(".toList s with
  | none => none
  | some r1 =>
    match takeFloatGroup r1 with
    | none => none
    | some (g1, r2) =>
      match dropLit ",".toList r2 with
      | none => none
      | some r3 =>
        match takeFloatGroup r3 with
        | none => none
        | some (g2, r4) =>
          match dropLit ")\x7d\x7d".toList r4 with
          | none => none
          | some r5 => some (String.mk g1, String.mk g2, r5)

/-- Try to match one pattern at the head of the input.  Returns the Go
capture groups and the remainder. -/
def tryKind : PatternKind → List Char → Option MatchResult
  | PatternKind.string, s =>
    match dropLit "\x7b\x7brandom.string".toList s with
    | none => none
    | some r =>
      match tryIntArg1 r with
      | some (g, rest) => some ⟨[g], rest⟩
      | none =>
        match dropLit "\x7d\x7d".toList r with
        | some rest => some ⟨[""], rest⟩
        | none => none
  | PatternKind.number, s =>
    match dropLit "\x7b\x7brandom.number".toList s with
    | none => none
    | some r =>
      match tryIntArg2 r with
      | some (g1, g2, rest) => some ⟨[g1, g2], rest⟩
      | none =>
        match dropLit "\x7d\x7d".toList r with
        | some rest => some ⟨["", ""], rest⟩
        | none => none
  | PatternKind.int, s =>
    match dropLit "\x7b\x7brandom.int".toList s with
    | none => none
    | some r =>
      match tryIntArg2 r with
      | some (g1, g2, rest) => some ⟨[g1, g2], rest⟩
      | none =>
        match dropLit "\x7d\x7d".toList r with
        | some rest => some ⟨["", ""], rest⟩
        | none => none
  | PatternKind.float, s =>
    match dropLit "\x7b\x7brandom.float".toList s with
    | none => none
    | some r =>
      match tryFloatArg2 r with
      | some (g1, g2, rest) => some ⟨[g1, g2], rest⟩
      | none =>
        match dropLit "\x7d\x7d".toList r with
        | some rest => some ⟨["", ""], rest⟩
        | none => none
  | PatternKind.uuid, s =>
    match dropLit "\x7b\x7brandom.uuid\x7d\x7d".toList s with
    | none => none
    | some rest => some ⟨[], rest⟩
  | PatternKind.email, s =>
    match dropLit "\x7b\x7brandom.email\x7d\x7d".toList s with
    | none => none
    | some rest => some ⟨[], rest⟩
  | PatternKind.name, s =>
    match dropLit "\x7b\x7brandom.name\x7d\x7d".toList s with
    | none => none
    | some rest => some ⟨[], rest⟩
  | PatternKind.timestamp, s =>
    match dropLit "\x7b\x7brandom.timestamp\x7d\x7d".toList s with
    | none => none
    | some rest => some ⟨[], rest⟩
  | PatternKind.choice, s =>
    match dropLit "\x7b\x7brandom.choice(".toList s with
    | none => none
    | some r =>
      let sp := r.span (fun c => c ≠ ')')
      if sp.1 = [] then none
      else
        match dropLit ")\x7d\x7d".toList sp.2 with
        | none => none
        | some rest => some ⟨[String.mk sp.1], rest⟩

/-- Model of regexp FindAllStringSubmatch: scan left to right, emit each
non-overlapping match as the Go submatch slice (whole match first, then the
capture groups).  Fuel equals the input length; every step consumes at least
one character (no pattern matches the empty string), so the fuel never runs
out. -/
def findAllAux (k : PatternKind) : Nat → List Char → List (List String)
  | 0, _ => []
  | _, [] => []
  | fuel + 1, c :: rest =>
    match tryKind k (c :: rest) with
    | some m =>
      let wholeLen := (c :: rest).length - m.rest.length
      (String.mk ((c :: rest).take wholeLen) :: m.groups)
        :: findAllAux k fuel (rest.drop (wholeLen - 1))
    | none => findAllAux k fuel rest

/-- All submatch slices of one pattern in a string, leftmost first. -/
def findAll (k : PatternKind) (s : String) : List (List String) :=
  findAllAux k s.toList.length s.toList

/-! ## The generators (utils.go lines 101-209)

Each generator takes the Go submatch slice (index 0 the whole match) and
the random source, and returns the replacement value, as in the source. -/

/-- Alphanumeric charset of generateRandomString. -/
def stringCharset : String :=
  "abcdefghijklmnopqrstuvwxyzABCDEFGHIJKLMNOPQRSTUVWXYZ0123456789"

/-- Draw n charset characters left to right. -/
def drawCharsetChars (r : Rng) : Nat → List Char × Rng
  | 0 => ([], r)
  | n + 1 =>
    let d := r.nextIntn 62
    let p := drawCharsetChars d.2 n
    (stringCharset.toList.getD d.1.toNat 'a' :: p.1, p.2)

/-- generateRandomString: length from match group 1 when present and
parseable (default 10), then that many uniform charset characters. -/
def generateRandomString (m : List String) (r : Rng) : GoValue × Rng :=
  let g1 := m.getD 1 ""
  let length : Int :=
    if m.length > 1 ∧ g1 ≠ "" then
      match goAtoi g1 with
      | some l => l
      | none => 10
    else 10
  let p := drawCharsetChars r length.toNat
  (GoValue.str (String.mk p.1), p.2)

/-- generateRandomNumber: bounds from groups 1 and 2 when both present
(default 1 and 1000, each kept on an Atoi error), result
Intn(max-min+1) + min. -/
def generateRandomNumber (m : List String) (r : Rng) : GoValue × Rng :=
  let g1 := m.getD 1 ""
  let g2 := m.getD 2 ""
  let bothGiven := m.length > 2 ∧ g1 ≠ "" ∧ g2 ≠ ""
  let mn : Int := if bothGiven then (goAtoi g1).getD 1 else 1
  let mx : Int := if bothGiven then (goAtoi g2).getD 1000 else 1000
  let d := r.nextIntn (mx - mn + 1)
  (GoValue.int (d.1 + mn), d.2)

/-- generateRandomInt is an alias for generateRandomNumber in the source. -/
def generateRandomInt (m : List String) (r : Rng) : GoValue × Rng :=
  generateRandomNumber m r

/-- generateRandomFloat: bounds from groups 1 and 2 when both present
(default 0 and 100, each kept on a ParseFloat error), result
min + Float64()*(max-min).  The groups come from the regex and are plain
digits-dot-digits text, so parsePlainDecimal parses the same language
ParseFloat does here; the binary64 rounding of overlong literals and the
float64 arithmetic of the result are carried exactly in the rationals, a
deviation no claim observes. -/
def generateRandomFloat (m : List String) (r : Rng) : GoValue × Rng :=
  let g1 := m.getD 1 ""
  let g2 := m.getD 2 ""
  let bothGiven := m.length > 2 ∧ g1 ≠ "" ∧ g2 ≠ ""
  let mn : ℚ := if bothGiven then (parsePlainDecimal g1).getD 0 else 0
  let mx : ℚ := if bothGiven then (parsePlainDecimal g2).getD 100 else 100
  let d := r.nextFloat
  (GoValue.float (mn + d.1 * (mx - mn)), d.2)

/-- Lowercase hex digit. -/
def hexDigit (n : Nat) : Char :=
  "0123456789abcdef".toList.getD (n % 16) '0'

/-- Two lowercase hex digits of one byte (the x verb on a byte slice). -/
def hexByte (n : Nat) : String :=
  String.mk [hexDigit (n / 16 % 16), hexDigit (n % 16)]

/-- Hex rendering of a byte list. -/
def hexBytes (bs : List Nat) : String :=
  bs.foldl (fun acc b => acc ++ hexByte b) ""

/-- Draw n bytes from crypto/rand. -/
def drawRandomBytes (r : Rng) : Nat → List Nat × Rng
  | 0 => ([], r)
  | n + 1 =>
    let d := r.nextByte
    let p := drawRandomBytes d.2 n
    (d.1 :: p.1, p.2)

/-- generateRandomUUID: 16 random bytes, version and variant bits forced,
hex formatted in the 4-2-2-2-6 dashed layout. -/
def generateRandomUUID (_m : List String) (r : Rng) : GoValue × Rng :=
  let p := drawRandomBytes r 16
  let bs := p.1
  let b := fun i => bs.getD i 0
  let b6 := (b 6).land 15 |>.lor 64
  let b8 := (b 8).land 63 |>.lor 128
  let s := hexBytes [b 0, b 1, b 2, b 3] ++ "-" ++ hexBytes [b 4, b 5] ++ "-" ++
    hexBytes [b6, b 7] ++ "-" ++ hexBytes [b8, b 9] ++ "-" ++
    hexBytes [b 10, b 11, b 12, b 13, b 14, b 15]
  (GoValue.str s, p.2)

/-- Local-part pool of generateRandomEmail. -/
def emailNames : List String :=
  ["john", "jane", "bob", "alice", "charlie", "diana", "eve", "frank"]

/-- Domain pool of generateRandomEmail. -/
def emailDomains : List String :=
  ["example.com", "test.com", "demo.org", "sample.net"]

/-- generateRandomEmail: pool name, pool domain, numeric suffix below 9999,
drawn in that order. -/
def generateRandomEmail (_m : List String) (r : Rng) : GoValue × Rng :=
  let dn := r.nextIntn 8
  let dd := dn.2.nextIntn 4
  let ds := dd.2.nextIntn 9999
  (GoValue.str (emailNames.getD dn.1.toNat "" ++ toString ds.1 ++ "@" ++
    emailDomains.getD dd.1.toNat ""), ds.2)

/-- First-name pool of generateRandomName. -/
def firstNames : List String :=
  ["John", "Jane", "Bob", "Alice", "Charlie", "Diana", "Eve", "Frank", "Grace", "Henry"]

/-- Last-name pool of generateRandomName. -/
def lastNames : List String :=
  ["Smith", "Johnson", "Brown", "Davis", "Miller", "Wilson", "Moore", "Taylor",
   "Anderson", "Thomas"]

/-- generateRandomName: pool first name, pool last name, space separated. -/
def generateRandomName (_m : List String) (r : Rng) : GoValue × Rng :=
  let df := r.nextIntn 10
  let dl := df.2.nextIntn 10
  (GoValue.str (firstNames.getD df.1.toNat "" ++ " " ++ lastNames.getD dl.1.toNat ""),
   dl.2)

/-- Thirty days in nanoseconds.  The source computes the window with
AddDate(0, 0, -30), which walks the civil calendar; around a daylight-saving
transition the wall-clock width can differ from 720 hours, a discrepancy no
claim depends on. -/
def thirtyDaysNanos : Int := 2592000000000000

/-- generateRandomTimestamp: a uniform instant in the trailing thirty days,
rendered by the abstract RFC-3339 formatter. -/
def generateRandomTimestamp (env : Env) (_m : List String) (r : Rng) : GoValue × Rng :=
  let past := env.now - thirtyDaysNanos
  let d := r.nextIntn (env.now - past)
  (GoValue.str (env.formatTime (past + d.1)), d.2)

/-- generateRandomChoice: split group 1 on commas, trim each alternative,
pick one uniformly.  The option1 fallbacks of the source are kept although
Split never returns an empty slice. -/
def generateRandomChoice (m : List String) (r : Rng) : GoValue × Rng :=
  if m.length < 2 then (GoValue.str "option1", r)
  else
    let choices := (splitOnComma (m.getD 1 "").toList).map
      (fun g => trimSpace (String.mk g))
    if choices.length = 0 then (GoValue.str "option1", r)
    else
      let d := r.nextIntn (choices.length : Int)
      (GoValue.str (choices.getD d.1.toNat "option1"), d.2)

/-- Dispatch to the generator of one pattern, as the source map does. -/
def runGenerator (env : Env) : PatternKind → List String → Rng → GoValue × Rng
  | PatternKind.string, m, r => generateRandomString m r
  | PatternKind.number, m, r => generateRandomNumber m r
  | PatternKind.int, m, r => generateRandomInt m r
  | PatternKind.float, m, r => generateRandomFloat m r
  | PatternKind.uuid, m, r => generateRandomUUID m r
  | PatternKind.email, m, r => generateRandomEmail m r
  | PatternKind.name, m, r => generateRandomName m r
  | PatternKind.timestamp, m, r => generateRandomTimestamp env m r
  | PatternKind.choice, m, r => generateRandomChoice m r

/-! ## replaceRandomPlaceholders and the tree traversal -/

/-- One iteration of the outer loop of replaceRandomPlaceholders: find all
matches of one pattern in the current text, then replace them one by one
(each replacement rewrites the first occurrence of the matched text in the
current string, with a fresh draw per match). -/
def applyPattern (env : Env) (k : PatternKind) (st : String × Rng) : String × Rng :=
  (findAll k st.1).foldl
    (fun acc m =>
      let g := runGenerator env k m acc.2
      (goReplaceFirst acc.1 (m.getD 0 "") (goFormat env g.1), g.2))
    st

/-- The full substitution pass: the outer loop over the pattern map, in the
iteration order ord (Go map order is unspecified). -/
def substituteAll (env : Env) (ord : List PatternKind) (text : String) (r : Rng) :
    String × Rng :=
  ord.foldl (fun st k => applyPattern env k st) (text, r)

/-- replaceRandomPlaceholders (utils.go lines 62-99): run all substitutions;
if the text changed, hand the result to strconv.ParseFloat -- on a nil
error return the value as an int when it equals its truncation and as a
float otherwise; in every other case return the (possibly substituted)
string.  The ParseFloat call and the two float64 tests are the environment
oracle (see ParseFloatOutcome). -/
def replaceRandomPlaceholders (env : Env) (ord : List PatternKind) (text : String)
    (r : Rng) : GoValue × Rng :=
  let p := substituteAll env ord text r
  if p.1 ≠ text then
    match env.parseFloat p.1 with
    | ParseFloatOutcome.integral n => (GoValue.int n, p.2)
    | ParseFloatOutcome.fractional q => (GoValue.float q, p.2)
    | ParseFloatOutcome.err => (GoValue.str p.1, p.2)
  else (GoValue.str p.1, p.2)

mutual

/-- processRandomValue (utils.go lines 40-59): strings go through the
placeholder engine, maps and slices are rebuilt entry by entry, every other
value passes through unchanged. -/
def processRandomValue (env : Env) (ord : List PatternKind) :
    GoValue → Rng → GoValue × Rng
  | GoValue.str s, r => replaceRandomPlaceholders env ord s r
  | GoValue.map m, r =>
    let p := processEntries env ord m r
    (GoValue.map p.1, p.2)
  | GoValue.list l, r =>
    let p := processItems env ord l r
    (GoValue.list p.1, p.2)
  | v, r => (v, r)

/-- Slice traversal of processRandomValue, preserving order. -/
def processItems (env : Env) (ord : List PatternKind) :
    List GoValue → Rng → List GoValue × Rng
  | [], r => ([], r)
  | v :: vs, r =>
    let p := processRandomValue env ord v r
    let q := processItems env ord vs p.2
    (p.1 :: q.1, q.2)

/-- Map traversal of processRandomValue, preserving keys. -/
def processEntries (env : Env) (ord : List PatternKind) :
    List (String × GoValue) → Rng → List (String × GoValue) × Rng
  | [], r => ([], r)
  | (k, v) :: es, r =>
    let p := processRandomValue env ord v r
    let q := processEntries env ord es p.2
    ((k, p.1) :: q.1, q.2)

end

/-- generateRandomVariables (utils.go lines 27-37): nil passes through,
otherwise every top-level entry is processed. -/
def generateRandomVariables (env : Env) (ord : List PatternKind)
    (baseVars : Option (List (String × GoValue))) (r : Rng) :
    Option (List (String × GoValue)) × Rng :=
  match baseVars with
  | none => (none, r)
  | some m =>
    let p := processEntries env ord m r
    (some p.1, p.2)

/-! ## The async CSV logger (utils.go lines 211-343)

The logger state is the channel buffer (a list bounded by the capacity
fixed at construction), the rows already handed to the CSV writer, and the
two flags of the Go struct.  Writes to the CSV writer are modelled as pure
appends (the source ignores the write error of data rows and the claims do
not concern write failures).  The count of launched background writers is
kept to state the at-most-one property. -/

structure RequestLogEntry where
  Date : String
  Status : Int
  Request : String
  Response : String

structure AsyncLogger where
  enabled : Bool
  started : Bool
  capacity : Nat
  queue : List RequestLogEntry
  written : List (List String)
  workersLaunched : Nat

/-- NewAsyncLogger: a disabled logger carries no file and a nil channel;
an enabled one requires the file creation (createOk models the os.Create
error) and allocates the channel with room for 1000 entries. -/
def NewAsyncLogger (enabled : Bool) (createOk : Bool) : Option AsyncLogger :=
  if ¬enabled then some ⟨false, false, 0, [], [], 0⟩
  else if createOk then some ⟨true, false, 1000, [], [], 0⟩
  else none

/-- The fixed CSV header row written by Start. -/
def csvHeader : List String := ["Date", "Status", "Request", "Response"]

/-- AsyncLogger.Start (utils.go lines 251-267): a no-op unless the logger is
enabled and not yet started; otherwise write the header row, launch the
background writer, and mark the logger started.  The error return of the
source is nil on both no-op paths and can only be non-nil if the buffered
header write fails, which the pure model cannot. -/
def AsyncLogger.Start (al : AsyncLogger) : AsyncLogger :=
  if ¬al.enabled ∨ al.started then al
  else
    { al with
      written := al.written ++ [csvHeader]
      workersLaunched := al.workersLaunched + 1
      started := true }

/-- AsyncLogger.Log (utils.go lines 288-301): a no-op unless enabled and
started; otherwise a non-blocking send -- enqueue when the channel buffer
has room, silently drop the entry when it is full.  The function has no
error result, as in the source. -/
def AsyncLogger.Log (al : AsyncLogger) (e : RequestLogEntry) : AsyncLogger :=
  if ¬al.enabled ∨ ¬al.started then al
  else if al.queue.length < al.capacity then { al with queue := al.queue ++ [e] }
  else al

/-- AsyncLogger.LogRequest: build the entry (with the abstract wall-clock
rendering) and hand it to Log when enabled. -/
def AsyncLogger.LogRequest (al : AsyncLogger) (dateStr : String) (statusCode : Int)
    (requestBody responseBody : String) : AsyncLogger :=
  if ¬al.enabled then al
  else al.Log ⟨dateStr, statusCode, requestBody, responseBody⟩

/-- The row the background writer emits for one entry. -/
def entryRow (e : RequestLogEntry) : List String :=
  [e.Date, toString e.Status, e.Request, e.Response]

/-- AsyncLogger.Stop: close the channel, let the worker drain every queued
entry to the writer, then close the file. -/
def AsyncLogger.Stop (al : AsyncLogger) : AsyncLogger :=
  if ¬al.enabled ∨ ¬al.started then al
  else
    { al with
      queue := []
      written := al.written ++ al.queue.map entryRow
      started := false }

/-- AsyncLogger.IsEnabled. -/
def AsyncLogger.IsEnabled (al : AsyncLogger) : Bool := al.enabled

/-! ## makeRequest (utils.go lines 439-491)

The transport collaborator (http.NewRequest, client.Do, the body read and
the JSON decode of the GraphQL response) is abstracted into one observed
behavior per request: either a request-construction error, a transport
error from Do (connection, timeout, DNS), or a response with a status code,
a raw body and the result of unmarshalling that body (none when the JSON
decode fails, otherwise the decoded application error list). -/

inductive TransportBehavior where
  | newRequestError : TransportBehavior
  | doError : TransportBehavior
  | response : Int → String → Option (List String) → TransportBehavior

/-- RequestResult of the source.  StatusCode is an int in Go and is simply
never assigned on the two error paths; the unassigned field (Go zero value
0) is modelled as none, and the histogram update below indexes it as 0
exactly as Go indexes the zero value. -/
structure RequestResult where
  Duration : Nat
  StatusCode : Option Int
  IsError : Bool
  Success : Bool
  RequestBody : String
  ResponseBody : String

/-- makeRequest: on either error path return a failed outcome with no
status code; on a response, succeed exactly when the status is 200 and the
decoded error list (when the body decodes at all) is empty; bodies are
carried only when request logging is on. -/
def makeRequest (behavior : TransportBehavior) (elapsed : Nat) (payload : String)
    (logRequests : Bool) : RequestResult :=
  match behavior with
  | TransportBehavior.newRequestError => ⟨elapsed, none, true, false, "", ""⟩
  | TransportBehavior.doError => ⟨elapsed, none, true, false, "", ""⟩
  | TransportBehavior.response st body parsed =>
    let success : Bool := decide (st = 200) &&
      (match parsed with
       | none => true
       | some errs => errs.isEmpty)
    { Duration := elapsed
      StatusCode := some st
      IsError := false
      Success := success
      RequestBody := if logRequests then payload else ""
      ResponseBody := if logRequests then body else "" }

/-! ## The dispatcher (main.go runLoadTest, lines 213-418)

The loop and the workers interact through the shared shutdown flag, the
rate limiter, the cancellable context and the semaphore.  The embedding
makes every observation a worker or the loop performs an explicit
parameter: the flag value read at the top of each iteration, the limiter
verdict of each iteration, and, per originated slot, whether the worker
returned before calling makeRequest (context done at the semaphore select,
flag observed set after acquiring the slot, or payload marshalling error)
together with the transport behavior it saw.  The mutex around the counter
updates serializes them, so the counter state is the fold of recordOutcome
over the completed outcomes in completion order; the counts folded below
are independent of that order. -/

structure Config where
  Concurrency : Int
  TotalReqs : Int
  TargetRPS : Int
  LogRequests : Bool

structure DispatchEnv where
  shutdownObs : Nat → Bool
  limiterOk : Nat → Bool
  workerAborted : Nat → Bool
  behavior : Nat → TransportBehavior
  elapsedOf : Nat → Nat
  payloadOf : Nat → String

/-- Window size handed to the tachymeter aggregator
(main.go lines 214-217): the fixed 10000 ceiling, lowered to the configured
total when that is smaller. -/
def windowSizeFor (totalReqs : Int) : Int :=
  if totalReqs < 10000 then totalReqs else 10000

/-- The fixed conservative p95 estimate of the source (300ms) in seconds. -/
def estP95Seconds : ℚ := 3 / 10

/-- Concurrency used for the run (main.go lines 219-227): when a target
rate is set and no positive concurrency is configured, derive
ceil(rate times the fixed p95 estimate) with a floor of one; otherwise keep
the configured value.  The assignment happens once, before the dispatch
loop, and the field is never written again, so the value is fixed for the
run.  The source computes the product in float64; rounding of r times 0.3
never crosses an integer for the int ranges involved, so the rational
product is exact. -/
def effectiveConcurrency (cfg : Config) : Int :=
  if cfg.TargetRPS > 0 ∧ cfg.Concurrency ≤ 0 then
    let c : Int := ⌈(cfg.TargetRPS : ℚ) * estP95Seconds⌉
    if c < 1 then 1 else c
  else cfg.Concurrency

/-! ### The dispatch loop as an event trace -/

inductive LoopEvent where
  | checkShutdown : Bool → LoopEvent
  | limiterWait : Bool → LoopEvent
  | originate : Nat → LoopEvent
deriving DecidableEq

/-- Events of the dispatch loop from iteration i with n iterations left
(main.go lines 310-396): each iteration reads the shutdown flag and breaks
when it is set; otherwise, when a limiter is configured, it waits on the
limiter and breaks on a wait error; otherwise it originates slot i (wg.Add
plus the goroutine that will acquire a semaphore slot). -/
def loopEventsFrom (env : DispatchEnv) (hasLimiter : Bool) (i : Nat) :
    Nat → List LoopEvent
  | 0 => []
  | n + 1 =>
    if env.shutdownObs i then [LoopEvent.checkShutdown true]
    else
      LoopEvent.checkShutdown false ::
        (if hasLimiter then
          LoopEvent.limiterWait (env.limiterOk i) ::
            (if env.limiterOk i then
              LoopEvent.originate i :: loopEventsFrom env hasLimiter (i + 1) n
            else [])
        else LoopEvent.originate i :: loopEventsFrom env hasLimiter (i + 1) n)

/-- The whole loop trace: TotalReqs iterations at most, with a limiter
exactly when a positive target rate is configured (main.go lines 305-308). -/
def loopEvents (cfg : Config) (env : DispatchEnv) : List LoopEvent :=
  loopEventsFrom env (decide (cfg.TargetRPS > 0)) 0 cfg.TotalReqs.toNat

/-- Select the slot of an origination event. -/
def originatePick : LoopEvent → Option Nat
  | LoopEvent.originate s => some s
  | _ => none

/-- The slots the loop originated, in order. -/
def originatedSlots (cfg : Config) (env : DispatchEnv) : List Nat :=
  (loopEvents cfg env).filterMap originatePick

/-- Outcome a worker reports, none when the worker returned before the
transport call (context done, shutdown flag observed after acquiring its
slot, or payload marshalling error -- the marshalling-error worker records
nothing, exactly as in main.go lines 358-362). -/
def workerResult (cfg : Config) (env : DispatchEnv) (i : Nat) : Option RequestResult :=
  if env.workerAborted i then none
  else some (makeRequest (env.behavior i) (env.elapsedOf i) (env.payloadOf i)
    cfg.LogRequests)

/-- The outcomes that reach the aggregation critical section, in completion
order.  Completion order is an arbitrary interleaving of the originated
workers; the counters folded below are order independent, so the embedding
fixes origination order. -/
def completedResults (cfg : Config) (env : DispatchEnv) : List RequestResult :=
  (originatedSlots cfg env).filterMap (workerResult cfg env)

/-- The mutex-protected exact counters of runLoadTest. -/
structure Counters where
  successCount : Nat
  failedCount : Nat
  statusCodes : List (Int × Nat)

/-- Histogram bump for one status code. -/
def bumpCode (code : Int) : List (Int × Nat) → List (Int × Nat)
  | [] => [(code, 1)]
  | (c, n) :: t => if c = code then (c, n + 1) :: t else (c, n) :: bumpCode code t

/-- One pass through the critical section (main.go lines 372-387): exactly
one of the two counters is incremented, and the histogram entry of the
status code (0 on a transport error, as in Go) is bumped. -/
def recordOutcome (c : Counters) (r : RequestResult) : Counters :=
  { successCount := if r.Success then c.successCount + 1 else c.successCount
    failedCount := if r.Success then c.failedCount else c.failedCount + 1
    statusCodes := bumpCode (r.StatusCode.getD 0) c.statusCodes }

/-- Counter state after the first k completions. -/
def countersAfter (cfg : Config) (env : DispatchEnv) (k : Nat) : Counters :=
  ((completedResults cfg env).take k).foldl recordOutcome ⟨0, 0, []⟩

/-- The results record of the source (TotalRequests is literally
successCount + failedCount at main.go lines 411-417). -/
structure TestResults where
  TotalRequests : Nat
  SuccessfulReqs : Nat
  FailedReqs : Nat
  StatusCodes : List (Int × Nat)

/-- runLoadTest distilled to the counters: fold every completed outcome and
report the final counts. -/
def runLoadTest (cfg : Config) (env : DispatchEnv) : TestResults :=
  let c := (completedResults cfg env).foldl recordOutcome ⟨0, 0, []⟩
  ⟨c.successCount + c.failedCount, c.successCount, c.failedCount, c.statusCodes⟩

/-! ### The worker as an event trace (main.go lines 324-395) -/

inductive WorkerEvent where
  | ctxCheck : Bool → WorkerEvent
  | acquireSlot : WorkerEvent
  | checkShutdown : Bool → WorkerEvent
  | invokeTransport : WorkerEvent
  | recordOutcome : WorkerEvent
  | releaseSlot : WorkerEvent
deriving DecidableEq

/-- The code path of one worker goroutine: the select between context
cancellation and the semaphore send, then -- once a slot is held -- the
shutdown-flag check before any payload work, and only when the flag is
clear the transport call, the aggregation, and the deferred slot release.
A worker that sees the flag set, or whose payload fails to marshal,
returns (releasing its slot on the way out) without touching the
transport.  This lists the statements the goroutine body would execute;
whether they all actually run depends on the process staying alive, since
the signal handler calls os.Exit(0) two seconds after setting the flag
(see workerExecuted below). -/
def workerEvents (ctxDone flagAfterAcquire marshalOk : Bool) : List WorkerEvent :=
  if ctxDone then [WorkerEvent.ctxCheck true]
  else
    WorkerEvent.ctxCheck false :: WorkerEvent.acquireSlot ::
      WorkerEvent.checkShutdown flagAfterAcquire ::
        (if flagAfterAcquire then [WorkerEvent.releaseSlot]
        else if ¬marshalOk then [WorkerEvent.releaseSlot]
        else [WorkerEvent.invokeTransport, WorkerEvent.recordOutcome,
          WorkerEvent.releaseSlot])

/-- Grammar of well-formed loop traces: every iteration opens with a read
of the shutdown flag; a set flag ends the trace with nothing after it; a
limiter wait happens only immediately after a clear check; an origination
happens only immediately after a clear check or a successful wait; a
failed wait ends the trace. -/
def loopTraceOk : List LoopEvent → Bool
  | [] => true
  | LoopEvent.checkShutdown true :: rest => decide (rest = [])
  | LoopEvent.checkShutdown false :: LoopEvent.limiterWait true ::
      LoopEvent.originate _ :: rest => loopTraceOk rest
  | LoopEvent.checkShutdown false :: LoopEvent.limiterWait false :: rest =>
      decide (rest = [])
  | LoopEvent.checkShutdown false :: LoopEvent.originate _ :: rest => loopTraceOk rest
  | _ => false

/-! ## Fixtures for concrete evaluations -/

/-- A concrete environment for closed theorems: the rendering fields are
arbitrary (never hit by the inputs the witnesses use) and the ParseFloat
oracle is the plain-decimal instance, which agrees with strconv.ParseFloat
at every string a closed theorem feeds it. -/
def defaultEnv : Env := ⟨fun _ => "", fun _ => "", decimalParseFloat, 0⟩

/-- A concrete random source: every stream is constantly zero. -/
def zeroRng : Rng := ⟨fun _ => 0, fun _ => 0, fun _ => 0, 0, 0, 0⟩

/-! ## C8: the latency window capacity -/

/-- C8: for every configured total request count N at least 1, the window
size handed to the tachymeter aggregator is exactly min(N, 10000)
(main.go lines 213-229). -/
theorem window_capacity_min (n : Int) (_h : 1 ≤ n) : windowSizeFor n = min n 10000 := by
  unfold windowSizeFor
  rcases lt_or_le n 10000 with h1 | h1
  · rw [if_pos h1, min_eq_left h1.le]
  · rw [if_neg (not_lt.mpr h1), min_eq_right h1]

/-- Witness for C8 at N = 1. -/
theorem window_capacity_min_witness :
    (1 : Int) ≤ 1 ∧ windowSizeFor 1 = min 1 10000 :=
  ⟨by decide, window_capacity_min 1 (by decide)⟩

/-! ## C5: derived concurrency -/

/-- C5: with configured concurrency 0 and a positive target rate, the run
uses concurrency ceil(rate times the fixed p95 estimate of 0.3 seconds)
floored at 1 (main.go lines 219-227); the value is computed once before the
dispatch loop and the config field is never assigned again, so it is fixed
for the run. -/
theorem derived_concurrency_formula (cfg : Config) (h0 : cfg.Concurrency = 0)
    (hr : 0 < cfg.TargetRPS) :
    effectiveConcurrency cfg = max 1 ⌈(cfg.TargetRPS : ℚ) * estP95Seconds⌉ ∧
      1 ≤ effectiveConcurrency cfg := by
  have hcond : cfg.TargetRPS > 0 ∧ cfg.Concurrency ≤ 0 := ⟨hr, le_of_eq h0⟩
  have hval : effectiveConcurrency cfg =
      if (⌈(cfg.TargetRPS : ℚ) * estP95Seconds⌉ : Int) < 1 then 1
      else ⌈(cfg.TargetRPS : ℚ) * estP95Seconds⌉ := by
    unfold effectiveConcurrency
    rw [if_pos hcond]
  rw [hval]
  rcases lt_or_le (⌈(cfg.TargetRPS : ℚ) * estP95Seconds⌉ : Int) 1 with h | h
  · rw [if_pos h, max_eq_left h.le]
    exact ⟨rfl, le_refl 1⟩
  · rw [if_neg (not_lt.mpr h), max_eq_right h]
    exact ⟨rfl, h⟩

/-- Witness for C5: rate 50 with concurrency 0 derives ceil(50 times 0.3),
floored at 1. -/
theorem derived_concurrency_formula_witness :
    effectiveConcurrency ⟨0, 100, 50, false⟩ =
      max 1 ⌈(((⟨0, 100, 50, false⟩ : Config).TargetRPS : ℚ)) * estP95Seconds⌉ ∧
      1 ≤ effectiveConcurrency ⟨0, 100, 50, false⟩ :=
  derived_concurrency_formula ⟨0, 100, 50, false⟩ rfl (by decide)

/-! ## C7: non-blocking bounded logging -/

/-- C7: offered an entry, a started enabled logger either enqueues it (when
the 1000-entry buffer allocated by NewAsyncLogger has room) or drops it
silently (when full); the call is a total function on the logger state with
no error result, modelling that it neither blocks nor reports failure
(utils.go lines 245 and 288-301). -/
theorem log_enqueue_or_drop (al : AsyncLogger) (e : RequestLogEntry)
    (he : al.enabled = true) (hs : al.started = true) :
    (al.queue.length < al.capacity →
      al.Log e = { al with queue := al.queue ++ [e] }) ∧
    (al.capacity ≤ al.queue.length → al.Log e = al) ∧
    (∀ createOk l, NewAsyncLogger true createOk = some l → l.capacity = 1000) := by
  refine ⟨fun h => ?_, fun h => ?_, fun createOk l hl => ?_⟩
  · unfold AsyncLogger.Log
    rw [if_neg (by simp [he, hs]), if_pos h]
  · unfold AsyncLogger.Log
    rw [if_neg (by simp [he, hs]), if_neg (not_lt.mpr h)]
  · cases createOk with
    | false => simp [NewAsyncLogger] at hl
    | true =>
      unfold NewAsyncLogger at hl
      simp at hl
      rw [← hl]

/-- Witness for C7: a freshly started logger enqueues the offered entry. -/
theorem log_enqueue_or_drop_witness :
    AsyncLogger.Log (AsyncLogger.Start ⟨true, false, 1000, [], [], 0⟩)
        ⟨"d", 200, "q", "r"⟩ =
      { (AsyncLogger.Start ⟨true, false, 1000, [], [], 0⟩) with
        queue := [⟨"d", 200, "q", "r"⟩] } :=
  (log_enqueue_or_drop (AsyncLogger.Start ⟨true, false, 1000, [], [], 0⟩)
    ⟨"d", 200, "q", "r"⟩ (by decide) (by decide)).1 (by decide)

/-! ## C9: idempotent Start -/

/-- C9: the first Start on an enabled, unstarted logger writes the header
row once and launches exactly one background writer; any Start on an
already-started logger is a no-op, so Start is idempotent
(utils.go lines 251-267). -/
theorem start_idempotent_once (al : AsyncLogger) (he : al.enabled = true)
    (hs : al.started = false) :
    al.Start.Start = al.Start ∧
    al.Start.written = al.written ++ [csvHeader] ∧
    al.Start.workersLaunched = al.workersLaunched + 1 ∧
    al.Start.started = true ∧
    (∀ b : AsyncLogger, b.started = true → b.Start = b) := by
  have hstep : al.Start =
      { al with
        written := al.written ++ [csvHeader]
        workersLaunched := al.workersLaunched + 1
        started := true } := by
    unfold AsyncLogger.Start
    rw [if_neg (by simp [he, hs])]
  have hnoop : ∀ b : AsyncLogger, b.started = true → b.Start = b := by
    intro b hb
    unfold AsyncLogger.Start
    rw [if_pos (Or.inr hb)]
  exact ⟨hnoop _ (by rw [hstep]), by rw [hstep], by rw [hstep], by rw [hstep], hnoop⟩

/-- Witness for C9: a fresh enabled logger, started twice, equals the same
logger started once. -/
theorem start_idempotent_once_witness :
    (AsyncLogger.Start (AsyncLogger.Start ⟨true, false, 1000, [], [], 0⟩)) =
      AsyncLogger.Start ⟨true, false, 1000, [], [], 0⟩ :=
  (start_idempotent_once ⟨true, false, 1000, [], [], 0⟩ rfl rfl).1

/-! ## C2: outcome classification of makeRequest -/

/-- C2: a transport exchange failure (request construction or client.Do
error) yields a failed outcome with no status code; a request that yields
an HTTP response fails exactly when the status is not 200, or the status is
200 and the decoded body carries a non-empty application error list
(utils.go lines 439-491). -/
theorem makeRequest_outcome_classification (elapsed : Nat) (payload : String)
    (logReq : Bool) :
    ((makeRequest TransportBehavior.doError elapsed payload logReq).Success = false ∧
      (makeRequest TransportBehavior.doError elapsed payload logReq).StatusCode = none) ∧
    ((makeRequest TransportBehavior.newRequestError elapsed payload logReq).Success
        = false ∧
      (makeRequest TransportBehavior.newRequestError elapsed payload
        logReq).StatusCode = none) ∧
    ∀ (st : Int) (body : String) (parsed : Option (List String)),
      (makeRequest (TransportBehavior.response st body parsed) elapsed payload
        logReq).StatusCode = some st ∧
      ((makeRequest (TransportBehavior.response st body parsed) elapsed payload
          logReq).Success = false ↔
        st ≠ 200 ∨ ∃ errs, parsed = some errs ∧ errs ≠ []) := by
  refine ⟨⟨rfl, rfl⟩, ⟨rfl, rfl⟩, fun st body parsed => ⟨rfl, ?_⟩⟩
  unfold makeRequest
  cases parsed with
  | none =>
    by_cases h : st = 200
    · subst h; simp
    · simp [h]
  | some errs =>
    by_cases h : st = 200
    · subst h
      cases errs <;> simp
    · simp [h]

/-- Witness for C2: status 200 with one application error is a failure. -/
theorem makeRequest_outcome_classification_witness :
    (makeRequest (TransportBehavior.response 200 "b" (some ["boom"])) 7 "p"
      false).Success = false :=
  ((makeRequest_outcome_classification 7 "p" false).2.2 200 "b"
    (some ["boom"])).2.mpr (Or.inr ⟨["boom"], rfl, by decide⟩)

/-! ## C1: counter conservation in the dispatcher -/

/-- Folding outcomes through the critical section adds exactly one to the
combined counter total per outcome. -/
theorem foldl_recordOutcome_sum (l : List RequestResult) (c : Counters) :
    (l.foldl recordOutcome c).successCount + (l.foldl recordOutcome c).failedCount =
      c.successCount + c.failedCount + l.length := by
  induction l generalizing c with
  | nil => simp
  | cons r t ih =>
    rw [List.foldl_cons, ih]
    unfold recordOutcome
    cases h : r.Success <;> simp [h] <;> omega

/-- The loop originates at most one slot per remaining iteration. -/
theorem originated_length_le (env : DispatchEnv) (hl : Bool) :
    ∀ (n i : Nat),
      ((loopEventsFrom env hl i n).filterMap originatePick).length ≤ n := by
  intro n
  induction n with
  | zero => intro i; simp [loopEventsFrom]
  | succ n ih =>
    intro i
    rw [loopEventsFrom]
    cases hobs : env.shutdownObs i with
    | true => simp [originatePick]
    | false =>
      cases hl with
      | false =>
        simp only [Bool.false_eq_true, if_false, List.filterMap_cons, originatePick,
          List.length_cons]
        have := ih (i + 1)
        omega
      | true =>
        cases hok : env.limiterOk i with
        | false =>
          simp [originatePick]
        | true =>
          simp only [Bool.false_eq_true, if_false, eq_self_iff_true, if_true,
            List.filterMap_cons, originatePick, List.length_cons]
          have := ih (i + 1)
          omega

/-- C1: at every point of a run, the successful and failed counters sum to
the number of completed requests, the final reported total is that same sum
and never exceeds the configured total, and each recorded outcome
increments exactly one of the two counters
(main.go lines 310-396 and 411-417). -/
theorem dispatcher_counter_invariant (cfg : Config) (env : DispatchEnv) (k : Nat) :
    (countersAfter cfg env k).successCount + (countersAfter cfg env k).failedCount =
      ((completedResults cfg env).take k).length ∧
    (runLoadTest cfg env).TotalRequests =
      (runLoadTest cfg env).SuccessfulReqs + (runLoadTest cfg env).FailedReqs ∧
    (runLoadTest cfg env).TotalRequests ≤ cfg.TotalReqs.toNat ∧
    ∀ (c : Counters) (r : RequestResult),
      ((recordOutcome c r).successCount = c.successCount + 1 ∧
        (recordOutcome c r).failedCount = c.failedCount) ∨
      ((recordOutcome c r).successCount = c.successCount ∧
        (recordOutcome c r).failedCount = c.failedCount + 1) := by
  refine ⟨?_, ?_, ?_, ?_⟩
  · unfold countersAfter
    simpa using foldl_recordOutcome_sum ((completedResults cfg env).take k) ⟨0, 0, []⟩
  · rfl
  · show (runLoadTest cfg env).TotalRequests ≤ cfg.TotalReqs.toNat
    have h1 := foldl_recordOutcome_sum (completedResults cfg env) ⟨0, 0, []⟩
    have h2 : (completedResults cfg env).length ≤ (originatedSlots cfg env).length :=
      List.length_filterMap_le _ _
    have h3 : (originatedSlots cfg env).length ≤ cfg.TotalReqs.toNat := by
      unfold originatedSlots loopEvents
      exact originated_length_le env _ _ 0
    have h4 : (runLoadTest cfg env).TotalRequests =
        (completedResults cfg env).length := by
      unfold runLoadTest
      simpa using h1
    omega
  · intro c r
    unfold recordOutcome
    cases h : r.Success
    · right; simp [h]
    · left; simp [h]

/-! ## C3: the cancellation discipline -/

/-- Every dispatch-loop trace satisfies the grammar loopTraceOk. -/
theorem loopTraceOk_from (env : DispatchEnv) (hl : Bool) :
    ∀ (n i : Nat), loopTraceOk (loopEventsFrom env hl i n) = true := by
  intro n
  induction n with
  | zero => intro i; rfl
  | succ n ih =>
    intro i
    rw [loopEventsFrom]
    cases hobs : env.shutdownObs i with
    | true => simp [loopTraceOk]
    | false =>
      cases hl with
      | false =>
        simp only [Bool.false_eq_true, if_false, loopTraceOk]
        exact ih (i + 1)
      | true =>
        cases hok : env.limiterOk i with
        | false => simp [loopTraceOk]
        | true =>
          simp only [Bool.false_eq_true, if_false, eq_self_iff_true, if_true,
            loopTraceOk]
          exact ih (i + 1)

/-! ### The signal handler and the forced process exit

setupSignalHandling (utils.go lines 412-436) does more than set the
cooperative flag: its goroutine stores 1 in the flag, sleeps two seconds,
prints and saves the partial results, and then calls os.Exit(0).  It never
waits on the dispatch WaitGroup, so the exit kills the process -- and with
it every worker still inside a transport call, whose own timeout is thirty
seconds (main.go line 251).  Worker code paths are therefore only
guaranteed to execute in full while the process is alive; workerExecuted
models the truncation. -/

/-- Timeout of the http.Client (main.go line 251), in nanoseconds. -/
def clientTimeoutNanos : Int := 30000000000

/-- The time.Sleep between the flag store and os.Exit(0) in the signal
handler (utils.go line 421), in nanoseconds. -/
def signalExitDelayNanos : Int := 2000000000

inductive HandlerEvent where
  | storeFlag : HandlerEvent
  | sleepDelay : HandlerEvent
  | reportPartial : HandlerEvent
  | exitProcess : HandlerEvent
deriving DecidableEq

/-- The signal-handler goroutine (utils.go lines 416-435), in program
order: store 1 in gracefulShutdown, sleep signalExitDelayNanos, print and
save the partial results, call os.Exit(0). -/
def signalHandlerEvents : List HandlerEvent :=
  [HandlerEvent.storeFlag, HandlerEvent.sleepDelay, HandlerEvent.reportPartial,
   HandlerEvent.exitProcess]

/-- The events one worker actually performs: its goroutine code path
workerEvents, truncated when os.Exit fires mid-worker.  cut = none models a
run in which the process is not exiting (no signal, or the worker finished
first); cut = some k models the process dying right after the worker
performed k of its events. -/
def workerExecuted (ctxDone flagAfterAcquire marshalOk : Bool) (cut : Option Nat) :
    List WorkerEvent :=
  match cut with
  | none => workerEvents ctxDone flagAfterAcquire marshalOk
  | some k => (workerEvents ctxDone flagAfterAcquire marshalOk).take k

/-- C3 counterexample: the claim says already-dispatched workers are never
forcibly aborted and run to completion, but the signal handler that sets
the flag -- the only writer of the flag, cited by the claim -- ends in
os.Exit(0) two seconds after the store, a window shorter than the thirty
second transport timeout, so the abort is not subsumed by the transport
finishing on its own.  Concretely: a worker that has invoked the transport
and is cut after its fourth event (the exit firing during a slow exchange)
never records its outcome and never releases its slot -- it is forcibly
aborted mid-flight. -/
theorem worker_killed_by_process_exit :
    signalHandlerEvents.getLast? = some HandlerEvent.exitProcess ∧
    signalExitDelayNanos < clientTimeoutNanos ∧
    WorkerEvent.invokeTransport ∈ workerExecuted false false true (some 4) ∧
    WorkerEvent.recordOutcome ∉ workerExecuted false false true (some 4) ∧
    WorkerEvent.releaseSlot ∉ workerExecuted false false true (some 4) := by
  decide

/-- C3 (amended): the cooperative flag is read at the top of every loop
iteration -- before any limiter wait and before the slot is originated --
and an observed set flag ends the trace with no further origination
(grammar loopTraceOk); a worker reads the flag again immediately after
acquiring its slot and before invoking the transport, and a worker whose
post-acquire read sees the flag set never reaches the transport; the
worker goroutine code itself has no abort point after the transport call,
and whenever the process survives past the end of a worker (no cut, or a
cut at or after its last event) the worker runs to completion.  But the
claim cannot be strengthened to unconditional run-to-completion: the
signal handler that sets the flag exits the process two seconds later --
inside the transport timeout -- and a worker cut before its record event
(the last conjunct, with cut bounded by the six events a worker has) never
records, as the counterexample exhibits
(main.go lines 310-336 and 324-395, utils.go lines 412-436). -/
theorem cancellation_discipline_with_forced_exit (cfg : Config) (env : DispatchEnv) :
    loopTraceOk (loopEvents cfg env) = true ∧
    (∀ c m, WorkerEvent.invokeTransport ∉ workerEvents c true m) ∧
    (∀ c f m, WorkerEvent.invokeTransport ∈ workerEvents c f m →
      workerEvents c f m =
        [WorkerEvent.ctxCheck false, WorkerEvent.acquireSlot,
         WorkerEvent.checkShutdown false, WorkerEvent.invokeTransport,
         WorkerEvent.recordOutcome, WorkerEvent.releaseSlot]) ∧
    (∀ c f m, workerExecuted c f m none = workerEvents c f m) ∧
    (∀ c f m k, (workerEvents c f m).length ≤ k →
      workerExecuted c f m (some k) = workerEvents c f m) ∧
    (∀ k, k ≤ 6 →
      (WorkerEvent.recordOutcome ∈ workerExecuted false false true (some k) ↔ 5 ≤ k)) ∧
    signalExitDelayNanos < clientTimeoutNanos := by
  refine ⟨loopTraceOk_from env _ _ 0, ?_, ?_, ?_, ?_, ?_, by decide⟩
  · intro c m
    cases c <;> cases m <;> decide
  · intro c f m
    cases c <;> cases f <;> cases m <;> decide
  · intro c f m
    rfl
  · intro c f m k hk
    unfold workerExecuted
    exact List.take_of_length_le hk
  · intro k hk
    interval_cases k <;> decide

/-- A concrete dispatch environment for witnesses. -/
def demoDispatchEnv : DispatchEnv :=
  ⟨fun _ => false, fun _ => true, fun _ => false,
   fun _ => TransportBehavior.doError, fun _ => 0, fun _ => ""⟩

/-- Witness for the amended C3: a worker that reached the transport shows
the full acquire-check-transport-record-release code path. -/
theorem cancellation_discipline_with_forced_exit_witness :
    workerEvents false false true =
      [WorkerEvent.ctxCheck false, WorkerEvent.acquireSlot,
       WorkerEvent.checkShutdown false, WorkerEvent.invokeTransport,
       WorkerEvent.recordOutcome, WorkerEvent.releaseSlot] :=
  (cancellation_discipline_with_forced_exit ⟨10, 5, 0, false⟩
    demoDispatchEnv).2.2.1 false false true (by decide)

/-! ## C10: no token, no change -/

/-- Some pattern of the map matches somewhere in the string. -/
def hasAnyPlaceholder (s : String) : Bool :=
  canonicalOrder.any (fun k => !(findAll k s).isEmpty)

/-- canonicalOrder lists every pattern kind. -/
theorem mem_canonicalOrder (k : PatternKind) : k ∈ canonicalOrder := by
  cases k <;> simp [canonicalOrder]

/-- A pattern without a match leaves the text and the random source
untouched. -/
theorem applyPattern_of_no_match (env : Env) (k : PatternKind) (s : String) (r : Rng)
    (h : findAll k s = []) : applyPattern env k (s, r) = (s, r) := by
  unfold applyPattern
  simp [h]

/-- C10: a string in which none of the nine placeholder patterns matches is
returned unchanged, still as a string, with the random source untouched and
no numeric coercion applied (utils.go lines 62-99: with no match the
substitution loop never rewrites the text, and the coercion branch requires
the text to have changed). -/
theorem replaceRandom_identity_no_tokens (env : Env) (ord : List PatternKind)
    (s : String) (r : Rng) (h : hasAnyPlaceholder s = false) :
    replaceRandomPlaceholders env ord s r = (GoValue.str s, r) := by
  have hk : ∀ k : PatternKind, findAll k s = [] := by
    intro k
    unfold hasAnyPlaceholder at h
    rw [List.any_eq_false] at h
    have := h k (mem_canonicalOrder k)
    simpa [List.isEmpty_iff] using this
  have hsub : substituteAll env ord s r = (s, r) := by
    unfold substituteAll
    induction ord with
    | nil => rfl
    | cons k ks ih =>
      rw [List.foldl_cons, applyPattern_of_no_match env k s r (hk k)]
      exact ih
  unfold replaceRandomPlaceholders
  rw [hsub]
  simp

/-- Witness for C10: a plain word passes through unchanged. -/
theorem replaceRandom_identity_no_tokens_witness :
    replaceRandomPlaceholders defaultEnv canonicalOrder "hello" zeroRng =
      (GoValue.str "hello", zeroRng) :=
  replaceRandom_identity_no_tokens defaultEnv canonicalOrder "hello" zeroRng (by decide)

/-! ## C4: numeric coercion after substitution

The claim ties the coercion to the token kind (numeric exactly when the
leaf was exactly one numeric-producing token).  The code instead coerces
whenever the substituted text differs from the original and ParseFloat
accepts it (utils.go lines 88-96), whatever kinds produced it.  The
counterexample below exhibits a leaf that is exactly one choice token --
not a numeric-producing kind, its result is one of the listed
alternatives -- whose replacement the code nevertheless returns as an
integer, deterministically, for every random source and every map
iteration order. -/

/-- A leaf consisting of exactly one choice token whose only alternative is
the text 5. -/
def choiceFiveText : String := "\x7b\x7brandom.choice(5)\x7d\x7d"

/-- The concrete oracle at the digit 5, where it agrees with ParseFloat
exactly: ParseFloat("5") returns 5.0 (one digit, no rounding, no special
form, no range error) with a nil error, 5.0 equals its truncation, and
int(5.0) is 5. -/
theorem decimalParseFloat_five :
    decimalParseFloat "5" = ParseFloatOutcome.integral 5 := by
  have h : parsePlainDecimal "5" = some 5 := by
    unfold parsePlainDecimal
    simp +decide [takeDigits, digitsToNat]
  unfold decimalParseFloat
  rw [h]
  decide

/-- The choice pattern rewrites the counterexample leaf to the text 5,
whatever the random source: the alternative list has a single element, so
the draw is taken mod one. -/
theorem applyPattern_choice_five (r : Rng) :
    applyPattern defaultEnv PatternKind.choice (choiceFiveText, r) =
      ("5", ⟨r.intSrc, r.floatSrc, r.byteSrc, r.intIdx + 1, r.floatIdx, r.byteIdx⟩) := by
  have hfind : findAll PatternKind.choice choiceFiveText =
      [[choiceFiveText, "5"]] := by decide
  have hgen : generateRandomChoice [choiceFiveText, "5"] r =
      (GoValue.str "5",
       ⟨r.intSrc, r.floatSrc, r.byteSrc, r.intIdx + 1, r.floatIdx, r.byteIdx⟩) := by
    have hsplit : splitOnComma ['5'] = [['5']] := by decide
    unfold generateRandomChoice Rng.nextIntn
    simp +decide [hsplit, Int.emod_one]
  unfold applyPattern
  rw [hfind]
  simp only [List.foldl_cons, List.foldl_nil, runGenerator]
  rw [hgen]
  simp +decide [goFormat]

/-- No pattern matches the counterexample leaf except choice, and none
matches its replacement. -/
theorem no_other_match_choice_five :
    (∀ k : PatternKind, k ≠ PatternKind.choice → findAll k choiceFiveText = []) ∧
    (∀ k : PatternKind, findAll k "5" = []) := by
  constructor
  · intro k hk
    cases k <;> first | decide | exact absurd rfl hk
  · intro k
    cases k <;> decide

/-- Once the text is the replacement 5, the remaining patterns change
nothing. -/
theorem substituteAll_five_fixed (env2 : Env) (ord : List PatternKind) (r : Rng) :
    substituteAll env2 ord "5" r = ("5", r) := by
  unfold substituteAll
  induction ord with
  | nil => rfl
  | cons k ks ih =>
    rw [List.foldl_cons,
      applyPattern_of_no_match env2 k "5" r (no_other_match_choice_five.2 k)]
    exact ih

/-- For every iteration order of the pattern map that reaches the choice
pattern at least once, and every random source, the counterexample leaf is
substituted to the text 5. -/
theorem substituteAll_choice_five (ord : List PatternKind) :
    ∀ r : Rng, PatternKind.choice ∈ ord →
      (substituteAll defaultEnv ord choiceFiveText r).1 = "5" := by
  induction ord with
  | nil => intro r hmem; cases hmem
  | cons k ks ih =>
    intro r hmem
    by_cases hk : k = PatternKind.choice
    · subst hk
      unfold substituteAll
      rw [List.foldl_cons, applyPattern_choice_five r]
      have := substituteAll_five_fixed defaultEnv ks
        ⟨r.intSrc, r.floatSrc, r.byteSrc, r.intIdx + 1, r.floatIdx, r.byteIdx⟩
      unfold substituteAll at this
      rw [this]
    · have hmem2 : PatternKind.choice ∈ ks := by
        cases hmem with
        | head => exact absurd rfl hk
        | tail _ h => exact h
      unfold substituteAll
      rw [List.foldl_cons,
        applyPattern_of_no_match defaultEnv k choiceFiveText r
          (no_other_match_choice_five.1 k hk)]
      have := ih r hmem2
      unfold substituteAll at this
      exact this

/-- C4 counterexample: the leaf consisting of exactly one choice token --
not a numeric-producing kind -- is returned as the integer 5, not as a
string, refuting the only-numeric-tokens-coerce direction of the claim.
The result is the same for every iteration order of the pattern map
(substituteAll_choice_five) and every random source; the canonical order
and the zero source make the statement closed.  At the replacement text 5
the concrete oracle agrees with strconv.ParseFloat exactly
(decimalParseFloat_five), so the trace matches the source step by step. -/
theorem choice_token_coerced_to_int :
    (replaceRandomPlaceholders defaultEnv canonicalOrder choiceFiveText zeroRng).1 =
      GoValue.int 5 := by
  have h1 : (substituteAll defaultEnv canonicalOrder choiceFiveText zeroRng).1 = "5" :=
    substituteAll_choice_five canonicalOrder zeroRng (by decide)
  have henv : defaultEnv.parseFloat "5" = ParseFloatOutcome.integral 5 :=
    decimalParseFloat_five
  simp only [replaceRandomPlaceholders]
  rw [h1, henv]
  simp +decide [choiceFiveText]

/-- C4 (amended): after all substitutions, the leaf is returned as a
numeric value exactly when the substituted text differs from the original
leaf text and strconv.ParseFloat accepts it (nil error) -- the kinds of the
substituted tokens play no role.  The numeric value is the Go int
conversion of the parsed float64 when that value equals its truncation,
and the float64 value otherwise; when the text is unchanged or ParseFloat
reports an error, the substituted text is returned as a string
(utils.go lines 88-98).  ParseFloat and the two float64 tests are binary64
floating point -- acceptance of inf, nan, hex and underscored forms,
rounding, range errors -- and enter through the environment oracle, so the
theorem quantifies over every behavior of that call. -/
theorem replaceRandom_coercion_characterization (env : Env) (ord : List PatternKind)
    (text : String) (r : Rng) :
    (((∃ n, (replaceRandomPlaceholders env ord text r).1 = GoValue.int n) ∨
      (∃ q, (replaceRandomPlaceholders env ord text r).1 = GoValue.float q)) ↔
      ((substituteAll env ord text r).1 ≠ text ∧
        env.parseFloat (substituteAll env ord text r).1 ≠ ParseFloatOutcome.err)) ∧
    ((substituteAll env ord text r).1 = text →
      (replaceRandomPlaceholders env ord text r).1 =
        GoValue.str (substituteAll env ord text r).1) ∧
    ((substituteAll env ord text r).1 ≠ text →
      env.parseFloat (substituteAll env ord text r).1 = ParseFloatOutcome.err →
      (replaceRandomPlaceholders env ord text r).1 =
        GoValue.str (substituteAll env ord text r).1) ∧
    (∀ n : Int, (substituteAll env ord text r).1 ≠ text →
      env.parseFloat (substituteAll env ord text r).1 = ParseFloatOutcome.integral n →
      (replaceRandomPlaceholders env ord text r).1 = GoValue.int n) ∧
    (∀ q : ℚ, (substituteAll env ord text r).1 ≠ text →
      env.parseFloat (substituteAll env ord text r).1 = ParseFloatOutcome.fractional q →
      (replaceRandomPlaceholders env ord text r).1 = GoValue.float q) := by
  by_cases h : (substituteAll env ord text r).1 = text
  · have hres : (replaceRandomPlaceholders env ord text r).1 =
        GoValue.str (substituteAll env ord text r).1 := by
      unfold replaceRandomPlaceholders
      simp [h]
    refine ⟨?_, fun _ => hres, fun hne _ => absurd h hne,
      fun n hne _ => absurd h hne, fun q hne _ => absurd h hne⟩
    rw [hres]
    simp [h]
  · rcases ho : env.parseFloat (substituteAll env ord text r).1 with _ | n | q
    · have hres : (replaceRandomPlaceholders env ord text r).1 =
          GoValue.str (substituteAll env ord text r).1 := by
        unfold replaceRandomPlaceholders
        simp [h, ho]
      refine ⟨?_, fun he => absurd he h, fun _ _ => hres,
        fun n hne hn => ?_, fun q hne hq => ?_⟩
      · rw [hres]
        simp [ho]
      · simp at hn
      · simp at hq
    · have hres : (replaceRandomPlaceholders env ord text r).1 = GoValue.int n := by
        unfold replaceRandomPlaceholders
        simp [h, ho]
      refine ⟨?_, fun he => absurd he h, fun _ he => ?_,
        fun n2 _ hn2 => ?_, fun q2 _ hq2 => ?_⟩
      · rw [hres]
        simp [h, ho]
      · simp at he
      · injection hn2 with e
        rw [hres, e]
      · simp at hq2
    · have hres : (replaceRandomPlaceholders env ord text r).1 = GoValue.float q := by
        unfold replaceRandomPlaceholders
        simp [h, ho]
      refine ⟨?_, fun he => absurd he h, fun _ he => ?_,
        fun n2 _ hn2 => ?_, fun q2 _ hq2 => ?_⟩
      · rw [hres]
        simp [h, ho]
      · simp at he
      · simp at hn2
      · injection hq2 with e
        rw [hres, e]

set_option maxRecDepth 8192 in
/-- Witness for the amended C4: a single int token with range 7 to 7 is
deterministically substituted to the text 7, on which the concrete oracle
(exact there, like at 5) reports the integral value 7, and the engine
returns the integer 7. -/
theorem replaceRandom_coercion_characterization_witness :
    (replaceRandomPlaceholders defaultEnv canonicalOrder
      "\x7b\x7brandom.int(7,7)\x7d\x7d" zeroRng).1 = GoValue.int 7 := by
  have h7 : decimalParseFloat "7" = ParseFloatOutcome.integral 7 := by
    have h : parsePlainDecimal "7" = some 7 := by
      unfold parsePlainDecimal
      simp +decide [takeDigits, digitsToNat]
    unfold decimalParseFloat
    rw [h]
    decide
  have hsub : (substituteAll defaultEnv canonicalOrder
      "\x7b\x7brandom.int(7,7)\x7d\x7d" zeroRng).1 = "7" := by decide
  exact (replaceRandom_coercion_characterization defaultEnv canonicalOrder
    "\x7b\x7brandom.int(7,7)\x7d\x7d" zeroRng).2.2.2.1 7
    (by rw [hsub]; decide) (by rw [hsub]; exact h7)

/-! ## C6: shape preservation of the tree traversal -/

mutual

/-- Shape relation encoding claim C6: a string leaf may become any scalar
leaf (the engine can return a string, an int or a float), every other leaf
must be unchanged, a list must keep its length and element order, a map
must keep exactly its key list. -/
def sameShape : GoValue → GoValue → Bool
  | GoValue.null, w =>
    match w with
    | GoValue.null => true
    | _ => false
  | GoValue.bool b, w =>
    match w with
    | GoValue.bool b2 => b == b2
    | _ => false
  | GoValue.int n, w =>
    match w with
    | GoValue.int n2 => n == n2
    | _ => false
  | GoValue.float q, w =>
    match w with
    | GoValue.float q2 => decide (q = q2)
    | _ => false
  | GoValue.str _, w =>
    match w with
    | GoValue.str _ => true
    | GoValue.int _ => true
    | GoValue.float _ => true
    | _ => false
  | GoValue.list l, w =>
    match w with
    | GoValue.list l2 => sameShapeList l l2
    | _ => false
  | GoValue.map m, w =>
    match w with
    | GoValue.map m2 => sameShapeMap m m2
    | _ => false

/-- Pointwise shape relation on slices. -/
def sameShapeList : List GoValue → List GoValue → Bool
  | [], [] => true
  | v :: vs, w :: ws => sameShape v w && sameShapeList vs ws
  | _, _ => false

/-- Pointwise shape relation on map entry lists: keys equal, values shape
related. -/
def sameShapeMap : List (String × GoValue) → List (String × GoValue) → Bool
  | [], [] => true
  | e :: es, f :: fs => e.1 == f.1 && sameShape e.2 f.2 && sameShapeMap es fs
  | _, _ => false

end

/-- The placeholder engine always returns a scalar leaf for a string leaf:
the text as a string, or the parsed number as an int or a float, for every
behavior of the ParseFloat oracle. -/
theorem replaceRandom_returns_scalar (env : Env) (ord : List PatternKind)
    (text : String) (r : Rng) :
    sameShape (GoValue.str text) (replaceRandomPlaceholders env ord text r).1 = true := by
  by_cases h : (substituteAll env ord text r).1 = text
  · simp [replaceRandomPlaceholders, h, sameShape]
  · rcases ho : env.parseFloat (substituteAll env ord text r).1 with _ | n | q
    · simp [replaceRandomPlaceholders, h, ho, sameShape]
    · simp [replaceRandomPlaceholders, h, ho, sameShape]
    · simp [replaceRandomPlaceholders, h, ho, sameShape]

mutual

/-- Traversal preserves shape on every value. -/
theorem processRandomValue_sameShape (env : Env) (ord : List PatternKind) :
    ∀ (v : GoValue) (r : Rng),
      sameShape v (processRandomValue env ord v r).1 = true
  | GoValue.null, r => by simp [processRandomValue, sameShape]
  | GoValue.bool b, r => by simp [processRandomValue, sameShape]
  | GoValue.int n, r => by simp [processRandomValue, sameShape]
  | GoValue.float q, r => by simp [processRandomValue, sameShape]
  | GoValue.str s, r => by
    have h := replaceRandom_returns_scalar env ord s r
    simpa [processRandomValue] using h
  | GoValue.list l, r => by
    have h := processItems_sameShape env ord l r
    simpa [processRandomValue, sameShape] using h
  | GoValue.map m, r => by
    have h := processEntries_sameShape env ord m r
    simpa [processRandomValue, sameShape] using h

/-- Traversal preserves shape on every slice. -/
theorem processItems_sameShape (env : Env) (ord : List PatternKind) :
    ∀ (l : List GoValue) (r : Rng),
      sameShapeList l (processItems env ord l r).1 = true
  | [], r => by simp [processItems, sameShapeList]
  | v :: vs, r => by
    simp only [processItems, sameShapeList, Bool.and_eq_true]
    exact ⟨processRandomValue_sameShape env ord v r,
      processItems_sameShape env ord vs (processRandomValue env ord v r).2⟩

/-- Traversal preserves shape on every entry list. -/
theorem processEntries_sameShape (env : Env) (ord : List PatternKind) :
    ∀ (m : List (String × GoValue)) (r : Rng),
      sameShapeMap m (processEntries env ord m r).1 = true
  | [], r => by simp [processEntries, sameShapeMap]
  | (k, v) :: es, r => by
    simp only [processEntries, sameShapeMap, Bool.and_eq_true, beq_self_eq_true,
      true_and]
    exact ⟨processRandomValue_sameShape env ord v r,
      processEntries_sameShape env ord es (processRandomValue env ord v r).2⟩

end

/-- C6: the traversal returns a tree of identical shape -- maps keep exactly
their key list (hence their key set), lists keep their length and element
order, non-string leaves pass through unchanged, and only string leaves are
rewritten, always to a scalar leaf (utils.go lines 27-59).  The second and
third conjuncts spell out what the shape relation enforces on lists and
maps. -/
theorem processRandomValue_preserves_shape (env : Env) (ord : List PatternKind) :
    (∀ (v : GoValue) (r : Rng),
      sameShape v (processRandomValue env ord v r).1 = true) ∧
    (∀ l l2 : List GoValue, sameShapeList l l2 = true → l.length = l2.length) ∧
    (∀ m m2 : List (String × GoValue), sameShapeMap m m2 = true →
      m.map Prod.fst = m2.map Prod.fst) := by
  refine ⟨processRandomValue_sameShape env ord, ?_, ?_⟩
  · intro l
    induction l with
    | nil =>
      intro l2 h
      cases l2 with
      | nil => rfl
      | cons w ws => simp [sameShapeList] at h
    | cons v vs ih =>
      intro l2 h
      cases l2 with
      | nil => simp [sameShapeList] at h
      | cons w ws =>
        simp only [sameShapeList, Bool.and_eq_true] at h
        simp [ih ws h.2]
  · intro m
    induction m with
    | nil =>
      intro m2 h
      cases m2 with
      | nil => rfl
      | cons f fs => simp [sameShapeMap] at h
    | cons e es ih =>
      intro m2 h
      cases m2 with
      | nil => simp [sameShapeMap] at h
      | cons f fs =>
        simp only [sameShapeMap, Bool.and_eq_true] at h
        have hk : e.1 = f.1 := by
          have := h.1.1
          exact eq_of_beq this
        simp [hk, ih fs h.2]

/-- Witness for C6: a small mixed tree keeps its shape, and the list clause
applies to a concrete pair of shape-related lists. -/
theorem processRandomValue_preserves_shape_witness :
    sameShape (GoValue.list [GoValue.str "a", GoValue.int 3])
      ((processRandomValue defaultEnv canonicalOrder
        (GoValue.list [GoValue.str "a", GoValue.int 3]) zeroRng).1) = true ∧
    List.length [GoValue.null] = List.length [GoValue.null] :=
  ⟨(processRandomValue_preserves_shape defaultEnv canonicalOrder).1 _ zeroRng,
   (processRandomValue_preserves_shape defaultEnv canonicalOrder).2.1 [GoValue.null]
     [GoValue.null] (by simp [sameShapeList, sameShape])⟩

end LoadTester
